import Mathlib

/-
Shallow embedding of the pog tokenizer (src/include/pog/tokenizer.h).

The external regular-expression engine (RE2) is abstracted as a primitive:
every token carries an anchored-match function `matchLen : List Char → Option Nat`
returning the length of the anchored match at the start of the given text
(`none` when the pattern does not match there).  This mirrors the two RE2
queries used by the tokenizer: `RE2::Set::Match` with `ANCHOR_START` (which
patterns of the compiled set match here) and the per-token
`RE2::Match(..., ANCHOR_START, &submatch, 1)` re-query (exact matched length).
Both queries use the same pattern, so they are the same function here.

Strings are `List Char`; `re2::StringPiece` cursors are the remaining suffix;
`remove_prefix(n)` is `List.drop n`.  The input stack is a `List InputStream`
with the head as top of stack (C++ uses `std::vector` back as top).
`_current_state` is a C++ pointer into the state map; it is embedded as the
state's name, resolved by lookup at each use, which matches the pointer's
aliasing behaviour (tokens added to a state after the pointer was taken are
visible through it).
-/

namespace Pog

/-- Token record (pog/token.h, used by tokenizer.h through its accessors
`get_pattern`/`get_regexp`, `has_symbol`/`get_symbol`, `has_action`/
`perform_action`, `has_transition_to_state`/`get_transition_to_state`).
Modelled from the spec: token.h itself is not under src/; §3 "Token
Definition" gives the fields: sequential `id`, a `pattern` (embedded as its
anchored-match function `matchLen`), an optional `symbol` (absent = skip
token), an optional value-producing `action`, and an optional
`transition` target state name.  Symbols are opaque identities (`Nat`). -/
structure Token (V : Type) where
  id : Nat
  matchLen : List Char → Option Nat
  symbol : Option Nat
  action : Option (List Char → V)
  transition : Option String

/-- Placeholder token used only to make list indexing total; it never
matches, so it is never selected. -/
def dummyToken (V : Type) : Token V :=
  { id := 0, matchLen := fun _ => none, symbol := none, action := none, transition := none }

/-- TokenMatch (tokenizer.h lines 13-28): symbol identity, computed value,
matched length.  The one-argument C++ constructor (used by the end-of-input
fallback) default-initializes the value and sets length 0. -/
structure TokenMatch (V : Type) where
  symbol : Nat
  value : V
  match_length : Nat
deriving Repr

/-- InputStream (tokenizer.h lines 30-35): the buffered `content`, the
`stream` cursor (remaining suffix of content) and the `at_end` flag. -/
structure InputStream where
  content : List Char
  stream : List Char
  at_end : Bool

/-- StateInfo (tokenizer.h lines 37-43): state name, its registered tokens in
registration order, and whether `re_set->Compile()` has run.  The compiled
set's patterns are exactly the tokens' patterns in the same order
(`add_token` appends to both in lockstep, and RE2 rejects `Add` after
`Compile`), so the set is represented by `tokens` plus the `compiled` flag. -/
structure StateInfo (V : Type) where
  name : String
  tokens : List (Token V)
  compiled : Bool

/-- Tokenizer state (tokenizer.h lines 193-198): the token arena `_tokens`,
the state registry `_state_info`, the input stack `_input_stack` (head = top)
and `_current_state` (by name, see the header comment).  `eoi_symbol` is the
grammar's end-of-input symbol, injected at construction. -/
structure Tokenizer (V : Type) where
  tokens : List (Token V)
  states : List (StateInfo V)
  input_stack : List InputStream
  current_state : String
  eoi_symbol : Nat

/-- Lookup of `_state_info` by state name (tokenizer.h `get_state_info`). -/
def lookupState {V : Type} (states : List (StateInfo V)) (name : String) :
    Option (StateInfo V) :=
  states.find? (fun st => st.name == name)

/-- Anchored match length of the state's `i`-th token against `input`
(tokenizer.h line 132, the per-token `ANCHOR_START` re-query; `getD 0` is
unreachable for indices reported by the set match, since set and per-token
queries use the same pattern). -/
def submatchLen {V : Type} (tokens : List (Token V)) (input : List Char) (i : Nat) : Nat :=
  ((tokens.getD i (dummyToken V)).matchLen input).getD 0

/-- RE2::Set::Match of the state's compiled set against `input`
(tokenizer.h line 121): the indices of the patterns that match, in
ascending pattern-index order, which is the state's registration order.
An uncompiled set reports no matches. -/
def matchedPatterns {V : Type} (st : StateInfo V) (input : List Char) : List Nat :=
  if st.compiled then
    (List.range st.tokens.length).filter
      (fun i => ((st.tokens.getD i (dummyToken V)).matchLen input).isSome)
  else []

/-- The selection loop of tokenizer.h lines 128-138: running
(best index, longest length) over the remaining candidate indices; a later
candidate replaces the current best only when its length is strictly
greater (`longest_match < submatch.size()`). -/
def pickLongest {V : Type} (tokens : List (Token V)) (input : List Char) :
    Nat × Nat → List Nat → Nat × Nat
  | best, [] => best
  | (bi, bl), i :: rest =>
    if bl < submatchLen tokens input i then
      pickLongest tokens input (i, submatchLen tokens input i) rest
    else
      pickLongest tokens input (bi, bl) rest

/-- Lines 120-138 of tokenizer.h: set match then the selection loop.
`none` is the empty matched set (lexical failure).  The C++ loop starts with
`longest_match = -1`, so the first candidate always becomes the best;
this is embedded by seeding `pickLongest` with the first candidate. -/
def scanIteration {V : Type} (st : StateInfo V) (input : List Char) : Option (Nat × Nat) :=
  match matchedPatterns st input with
  | [] => none
  | i :: is => some (pickLongest st.tokens input (i, submatchLen st.tokens input i) is)

/-- Lines 140-141 of tokenizer.h: `if (current_input.stream.size() == 0)
current_input.at_end = true;` — note this reads the stream size before
`remove_prefix`, i.e. before the winner is consumed. -/
def bumpEnd (cur : InputStream) : InputStream :=
  if cur.stream.length = 0 then { cur with at_end := true } else cur

/-- Lines 143-144 plus `enter_state` (lines 187-191): resolve the winner's
transition.  `none` is the fatal assert `"Transition to unknown state in
tokenizer"`; a winner without transition keeps the current state. -/
def transResolve {V : Type} (tk : Tokenizer V) (t : Token V) : Option String :=
  match t.transition with
  | none => some tk.current_state
  | some name => if (lookupState tk.states name).isSome then some name else none

/-- Lines 146-148 of tokenizer.h: the action value, computed on the matched
text (the first `len` characters of the cursor, read before the cursor is
advanced); without an action the value is default-initialized. -/
def winValue {V : Type} [Inhabited V] (t : Token V) (cur : InputStream) (len : Nat) : V :=
  match t.action with
  | some f => f (cur.stream.take len)
  | none => default

/-- The tokenizer state after the winning iteration's mutations: the `at_end`
check (lines 140-141), the state transition (lines 143-144) and the cursor
advance `remove_prefix(longest_match)` (line 150). -/
def afterWin {V : Type} (tk : Tokenizer V) (cur : InputStream) (rest : List InputStream)
    (len : Nat) (nn : String) : Tokenizer V :=
  { tk with
    current_state := nn,
    input_stack := { bumpEnd cur with stream := (bumpEnd cur).stream.drop len } :: rest }

/-- Outcome of one iteration of the `while (repeat)` loop of `next_token`. -/
inductive StepOut (V : Type) where
  | done (r : Option (TokenMatch V)) (tk : Tokenizer V)
  | again (tk : Tokenizer V)
  | fatal

/-- The tokenizer state a non-fatal iteration leaves behind. -/
def StepOut.nextTk {V : Type} : StepOut V → Option (Tokenizer V)
  | .done _ tk => some tk
  | .again tk => some tk
  | .fatal => none

/-- Lines 140-154 of tokenizer.h, after a winning selection `(bi, len)` in
state `cs` on top stream `cur`: set `at_end` if the stream was empty, resolve
the transition (fatal on unknown state), compute the value, advance the
cursor, then either `continue` (skip token, line 151-152) or return the
match (line 154). -/
def winStep {V : Type} [Inhabited V] (tk : Tokenizer V) (cur : InputStream)
    (rest : List InputStream) (cs : StateInfo V) (bi len : Nat) : StepOut V :=
  match transResolve tk (cs.tokens.getD bi (dummyToken V)) with
  | none => .fatal
  | some nn =>
    match (cs.tokens.getD bi (dummyToken V)).symbol with
    | none => .again (afterWin tk cur rest len nn)
    | some s =>
      .done (some { symbol := s,
                    value := winValue (cs.tokens.getD bi (dummyToken V)) cur len,
                    match_length := len })
        (afterWin tk cur rest len nn)

/-- One iteration of `next_token` (tokenizer.h lines 110-161): empty stack →
no token (line 112-113); exhausted top stream → end-of-input fallback
(line 160, via `TokenMatch(symbol)`: default value, length 0); empty matched
set → no token (lines 124-125); otherwise the winning-match path.  Resolving
the `_current_state` pointer is a registry lookup here; it cannot fail for
states reached through `enter_state`, and its failure is embedded as
`fatal` like any invalid-pointer use. -/
def nextTokenStep {V : Type} [Inhabited V] (tk : Tokenizer V) : StepOut V :=
  match tk.input_stack with
  | [] => .done none tk
  | cur :: rest =>
    if cur.at_end then
      .done (some { symbol := tk.eoi_symbol, value := default, match_length := 0 }) tk
    else
      match lookupState tk.states tk.current_state with
      | none => .fatal
      | some cs =>
        match scanIteration cs cur.stream with
        | none => .done none tk
        | some (bi, len) => winStep tk cur rest cs bi len

/-- Result of a full `next_token` call.  `fuelOut` marks that the loop did
not terminate within the given fuel (the C++ loop can run forever, e.g. on a
zero-length skip match). -/
inductive ScanOutcome (V : Type) where
  | result (r : Option (TokenMatch V)) (tk : Tokenizer V)
  | fatal
  | fuelOut

/-- The `while (repeat)` loop of `next_token`, iterated with fuel: a `done`
iteration returns, an `again` iteration (skip token) restarts from the top
of the loop against the updated tokenizer. -/
def nextToken {V : Type} [Inhabited V] : Nat → Tokenizer V → ScanOutcome V
  | 0, _ => .fuelOut
  | fuel + 1, tk =>
    match nextTokenStep tk with
    | .done r tk' => .result r tk'
    | .again tk' => nextToken fuel tk'
    | .fatal => .fatal

/-- prepare (tokenizer.h lines 63-67): compile every state's set.
`RE2::Set::Compile` on an already-compiled set refuses to recompile and
leaves the automaton unchanged, so compilation is a flag here. -/
def prepare {V : Type} (tk : Tokenizer V) : Tokenizer V :=
  { tk with states := tk.states.map (fun st => { st with compiled := true }) }

/-- get_or_make_state_info (lines 167-177) merged with the per-state part of
add_token (lines 77-84): append the token to the named state, creating the
state first when absent. -/
def addTokenToState {V : Type} (states : List (StateInfo V)) (name : String)
    (t : Token V) : List (StateInfo V) :=
  if states.any (fun st => st.name == name) then
    states.map (fun st =>
      if st.name == name then { st with tokens := st.tokens ++ [t] } else st)
  else
    states ++ [{ name := name, tokens := [t], compiled := false }]

/-- add_token (tokenizer.h lines 74-86): a fresh token with sequential id,
appended to the arena and to each named state.  The C++ caller sets action
and transition through setters on the returned token; they are taken as
arguments here since tokens are immutable afterwards. -/
def addToken {V : Type} (tk : Tokenizer V) (mlen : List Char → Option Nat)
    (symbol : Option Nat) (action : Option (List Char → V))
    (transition : Option String) (stateNames : List String) : Tokenizer V :=
  let t : Token V := { id := tk.tokens.length, matchLen := mlen, symbol := symbol,
                       action := action, transition := transition }
  { tk with
    tokens := tk.tokens ++ [t],
    states := stateNames.foldl (fun sts n => addTokenToState sts n t) tk.states }

/-- Modelled from the spec: the `"$"` pattern registered at construction.
The regex engine is external; anchored at the start, `$` matches exactly the
empty remaining input, with length 0. -/
def endPattern : List Char → Option Nat :=
  fun s => if s = [] then some 0 else none

/-- The state name `"@default"` (tokenizer.h line 49). -/
def defaultStateName : String := "@default"

/-- The Tokenizer constructor (lines 57-61): make the default state, point
`_current_state` at it, and register the `"$"` token with the grammar's
end-of-input symbol into it. -/
def mkTokenizer (V : Type) (eoi : Nat) : Tokenizer V :=
  addToken
    { tokens := [], states := [{ name := defaultStateName, tokens := [], compiled := false }],
      input_stack := [], current_state := defaultStateName, eoi_symbol := eoi }
    endPattern (some eoi) none none [defaultStateName]

/-- push_input_stream (lines 88-100): buffer the whole source and push a new
stream whose cursor is the full content. -/
def pushInputStream {V : Type} (tk : Tokenizer V) (content : List Char) : Tokenizer V :=
  { tk with input_stack :=
      { content := content, stream := content, at_end := false } :: tk.input_stack }

/-- pop_input_stream (lines 102-105): drop the top stream; the entries
beneath are untouched. -/
def popInputStream {V : Type} (tk : Tokenizer V) : Tokenizer V :=
  { tk with input_stack := tk.input_stack.tail }

/-- Anchored match function of a literal pattern: matches exactly when the
input starts with the literal, with the literal's length. -/
def patLit (cs : List Char) : List Char → Option Nat :=
  fun s => if cs = s.take cs.length then some cs.length else none

/-! ## General lemmas about the selection loop -/

theorem pickLongest_spec {V : Type} (tokens : List (Token V)) (input : List Char)
    (is : List Nat) :
    ∀ bi bl : Nat, (∀ j ∈ is, bi < j) → is.Pairwise (· < ·) →
      bl ≤ (pickLongest tokens input (bi, bl) is).2
      ∧ bi ≤ (pickLongest tokens input (bi, bl) is).1
      ∧ (pickLongest tokens input (bi, bl) is = (bi, bl)
         ∨ ((pickLongest tokens input (bi, bl) is).1 ∈ is
            ∧ submatchLen tokens input (pickLongest tokens input (bi, bl) is).1
                = (pickLongest tokens input (bi, bl) is).2
            ∧ bl < (pickLongest tokens input (bi, bl) is).2))
      ∧ (∀ j ∈ is, submatchLen tokens input j ≤ (pickLongest tokens input (bi, bl) is).2)
      ∧ (∀ j ∈ is, submatchLen tokens input j = (pickLongest tokens input (bi, bl) is).2
          → (pickLongest tokens input (bi, bl) is).1 ≤ j) := by
  induction is with
  | nil =>
    intro bi bl _ _
    simp [pickLongest]
  | cons i rest ih =>
    intro bi bl hgt hpw
    have hbi : bi < i := hgt i (List.mem_cons_self i rest)
    have hgt' : ∀ j ∈ rest, bi < j := fun j hj => hgt j (List.mem_cons_of_mem i hj)
    have hlti : ∀ j ∈ rest, i < j := (List.pairwise_cons.mp hpw).1
    have hpw' : rest.Pairwise (· < ·) := (List.pairwise_cons.mp hpw).2
    by_cases hc : bl < submatchLen tokens input i
    · have hrw : pickLongest tokens input (bi, bl) (i :: rest)
          = pickLongest tokens input (i, submatchLen tokens input i) rest := by
        simp only [pickLongest]
        rw [if_pos hc]
      rw [hrw]
      obtain ⟨h1, h2, h3, h4, h5⟩ := ih i (submatchLen tokens input i) hlti hpw'
      refine ⟨le_of_lt (lt_of_lt_of_le hc h1), le_trans (le_of_lt hbi) h2, ?_, ?_, ?_⟩
      · rcases h3 with heq | ⟨hm, hs, hlt⟩
        · refine Or.inr ⟨?_, ?_, ?_⟩
          · rw [heq]; exact List.mem_cons_self i rest
          · rw [heq]
          · rw [heq]; exact hc
        · exact Or.inr ⟨List.mem_cons_of_mem i hm, hs, lt_trans hc hlt⟩
      · intro j hj
        rcases List.mem_cons.mp hj with rfl | hj'
        · exact h1
        · exact h4 j hj'
      · intro j hj hs
        rcases List.mem_cons.mp hj with rfl | hj'
        · rcases h3 with heq | ⟨_, _, hlt⟩
          · rw [heq]
          · exact absurd hs (ne_of_lt hlt)
        · exact h5 j hj' hs
    · push_neg at hc
      have hrw : pickLongest tokens input (bi, bl) (i :: rest)
          = pickLongest tokens input (bi, bl) rest := by
        simp only [pickLongest]
        rw [if_neg (not_lt.mpr hc)]
      rw [hrw]
      obtain ⟨h1, h2, h3, h4, h5⟩ := ih bi bl hgt' hpw'
      refine ⟨h1, h2, ?_, ?_, ?_⟩
      · rcases h3 with heq | ⟨hm, hs, hlt⟩
        · exact Or.inl heq
        · exact Or.inr ⟨List.mem_cons_of_mem i hm, hs, hlt⟩
      · intro j hj
        rcases List.mem_cons.mp hj with rfl | hj'
        · exact le_trans hc h1
        · exact h4 j hj'
      · intro j hj hs
        rcases List.mem_cons.mp hj with rfl | hj'
        · rcases h3 with heq | ⟨_, _, hlt⟩
          · rw [heq]; exact le_of_lt hbi
          · exact absurd hs (ne_of_lt (lt_of_le_of_lt hc hlt))
        · exact h5 j hj' hs

theorem matchedPatterns_pairwise {V : Type} (st : StateInfo V) (input : List Char) :
    (matchedPatterns st input).Pairwise (· < ·) := by
  unfold matchedPatterns
  split
  · exact (List.pairwise_lt_range _).sublist (List.filter_sublist _)
  · exact List.Pairwise.nil

/-- The winning selection `(bi, len)` of a scan iteration: `bi` is a matched
candidate, its anchored length is `len`, `len` is the maximum over all
matched candidates, and `bi` is the least matched index achieving it. -/
theorem scanIteration_spec {V : Type} (st : StateInfo V) (input : List Char)
    (bi len : Nat) (h : scanIteration st input = some (bi, len)) :
    bi ∈ matchedPatterns st input
    ∧ submatchLen st.tokens input bi = len
    ∧ (∀ j ∈ matchedPatterns st input, submatchLen st.tokens input j ≤ len)
    ∧ (∀ j ∈ matchedPatterns st input, submatchLen st.tokens input j = len → bi ≤ j) := by
  unfold scanIteration at h
  rcases hm : matchedPatterns st input with _ | ⟨i, is⟩
  · rw [hm] at h; simp at h
  · rw [hm] at h
    simp only [Option.some.injEq] at h
    have hpw := matchedPatterns_pairwise st input
    rw [hm] at hpw
    have hlt := (List.pairwise_cons.mp hpw).1
    have hpw' := (List.pairwise_cons.mp hpw).2
    obtain ⟨h1, h2, h3, h4, h5⟩ :=
      pickLongest_spec st.tokens input is i (submatchLen st.tokens input i) hlt hpw'
    rw [h] at h1 h2 h3 h4 h5
    simp only at h1 h2 h3 h4 h5
    refine ⟨?_, ?_, ?_, ?_⟩
    · rcases h3 with heq | ⟨hm2, _, _⟩
      · rw [show bi = i from congrArg Prod.fst heq]
        exact List.mem_cons_self i is
      · exact List.mem_cons_of_mem i hm2
    · rcases h3 with heq | ⟨_, hs, _⟩
      · injection heq with hb hl
        rw [hb, hl]
      · exact hs
    · intro j hj
      rcases List.mem_cons.mp hj with rfl | hj'
      · exact h1
      · exact h4 j hj'
    · intro j hj hs
      rcases List.mem_cons.mp hj with rfl | hj'
      · rcases h3 with heq | ⟨_, _, hlt2⟩
        · injection heq with hb _
          exact le_of_eq hb
        · exact absurd hs (ne_of_lt hlt2)
      · exact h5 j hj' hs

/-! ## Characterizations of one `next_token` iteration per branch -/

theorem nextTokenStep_emptyStack {V : Type} [Inhabited V] (tk : Tokenizer V)
    (h : tk.input_stack = []) : nextTokenStep tk = .done none tk := by
  unfold nextTokenStep
  rw [h]

theorem nextTokenStep_atEnd {V : Type} [Inhabited V] (tk : Tokenizer V)
    (cur : InputStream) (rest : List InputStream)
    (h1 : tk.input_stack = cur :: rest) (h2 : cur.at_end = true) :
    nextTokenStep tk
      = .done (some { symbol := tk.eoi_symbol, value := default, match_length := 0 }) tk := by
  unfold nextTokenStep
  rw [h1]
  simp [h2]

theorem nextTokenStep_noMatch {V : Type} [Inhabited V] (tk : Tokenizer V)
    (cur : InputStream) (rest : List InputStream) (cs : StateInfo V)
    (h1 : tk.input_stack = cur :: rest) (h2 : cur.at_end = false)
    (h3 : lookupState tk.states tk.current_state = some cs)
    (h4 : matchedPatterns cs cur.stream = []) :
    nextTokenStep tk = .done none tk := by
  unfold nextTokenStep
  rw [h1]
  simp only [h2, Bool.false_eq_true, if_false, h3]
  unfold scanIteration
  rw [h4]

theorem nextTokenStep_noState {V : Type} [Inhabited V] (tk : Tokenizer V)
    (cur : InputStream) (rest : List InputStream)
    (h1 : tk.input_stack = cur :: rest) (h2 : cur.at_end = false)
    (h3 : lookupState tk.states tk.current_state = none) :
    nextTokenStep tk = .fatal := by
  unfold nextTokenStep
  rw [h1]
  simp only [h2, Bool.false_eq_true, if_false, h3]

theorem nextTokenStep_noScan {V : Type} [Inhabited V] (tk : Tokenizer V)
    (cur : InputStream) (rest : List InputStream) (cs : StateInfo V)
    (h1 : tk.input_stack = cur :: rest) (h2 : cur.at_end = false)
    (h3 : lookupState tk.states tk.current_state = some cs)
    (h4 : scanIteration cs cur.stream = none) :
    nextTokenStep tk = .done none tk := by
  unfold nextTokenStep
  rw [h1]
  simp only [h2, Bool.false_eq_true, if_false, h3, h4]

theorem nextTokenStep_win {V : Type} [Inhabited V] (tk : Tokenizer V)
    (cur : InputStream) (rest : List InputStream) (cs : StateInfo V) (bi len : Nat)
    (h1 : tk.input_stack = cur :: rest) (h2 : cur.at_end = false)
    (h3 : lookupState tk.states tk.current_state = some cs)
    (h4 : scanIteration cs cur.stream = some (bi, len)) :
    nextTokenStep tk = winStep tk cur rest cs bi len := by
  unfold nextTokenStep
  rw [h1]
  simp only [h2, Bool.false_eq_true, if_false, h3, h4]

theorem nextToken_succ {V : Type} [Inhabited V] (tk tk' : Tokenizer V) (fuel : Nat)
    (h : nextTokenStep tk = .again tk') :
    nextToken (fuel + 1) tk = nextToken fuel tk' := by
  have hu : nextToken (fuel + 1) tk
      = match nextTokenStep tk with
        | StepOut.done r u => ScanOutcome.result r u
        | StepOut.again u => nextToken fuel u
        | StepOut.fatal => ScanOutcome.fatal := rfl
  rw [hu, h]

theorem nextToken_done {V : Type} [Inhabited V] (tk tk' : Tokenizer V)
    (r : Option (TokenMatch V)) (fuel : Nat)
    (h : nextTokenStep tk = .done r tk') :
    nextToken (fuel + 1) tk = .result r tk' := by
  have hu : nextToken (fuel + 1) tk
      = match nextTokenStep tk with
        | StepOut.done r u => ScanOutcome.result r u
        | StepOut.again u => nextToken fuel u
        | StepOut.fatal => ScanOutcome.fatal := rfl
  rw [hu, h]

theorem bumpEnd_stream (cur : InputStream) : (bumpEnd cur).stream = cur.stream := by
  unfold bumpEnd
  split <;> rfl

theorem bumpEnd_content (cur : InputStream) : (bumpEnd cur).content = cur.content := by
  unfold bumpEnd
  split <;> rfl

theorem bumpEnd_at_end (cur : InputStream) (h : cur.at_end = false) :
    (bumpEnd cur).at_end = decide (cur.stream.length = 0) := by
  unfold bumpEnd
  split
  · next hc => simp [hc]
  · next hc => simp [h, hc]

theorem nextToken_fatal {V : Type} [Inhabited V] (tk : Tokenizer V) (fuel : Nat)
    (h : nextTokenStep tk = .fatal) : nextToken (fuel + 1) tk = .fatal := by
  have hu : nextToken (fuel + 1) tk
      = match nextTokenStep tk with
        | StepOut.done r u => ScanOutcome.result r u
        | StepOut.again u => nextToken fuel u
        | StepOut.fatal => ScanOutcome.fatal := rfl
  rw [hu, h]

theorem winStep_skip {V : Type} [Inhabited V] (tk : Tokenizer V) (cur : InputStream)
    (rest : List InputStream) (cs : StateInfo V) (bi len : Nat) (nn : String)
    (htr : transResolve tk (cs.tokens.getD bi (dummyToken V)) = some nn)
    (hsym : (cs.tokens.getD bi (dummyToken V)).symbol = none) :
    winStep tk cur rest cs bi len = .again (afterWin tk cur rest len nn) := by
  unfold winStep
  rw [htr, hsym]

theorem winStep_sym {V : Type} [Inhabited V] (tk : Tokenizer V) (cur : InputStream)
    (rest : List InputStream) (cs : StateInfo V) (bi len : Nat) (nn : String) (s : Nat)
    (htr : transResolve tk (cs.tokens.getD bi (dummyToken V)) = some nn)
    (hsym : (cs.tokens.getD bi (dummyToken V)).symbol = some s) :
    winStep tk cur rest cs bi len
      = .done (some { symbol := s,
                      value := winValue (cs.tokens.getD bi (dummyToken V)) cur len,
                      match_length := len })
          (afterWin tk cur rest len nn) := by
  unfold winStep
  rw [htr, hsym]

theorem winStep_unknownState {V : Type} [Inhabited V] (tk : Tokenizer V) (cur : InputStream)
    (rest : List InputStream) (cs : StateInfo V) (bi len : Nat)
    (htr : transResolve tk (cs.tokens.getD bi (dummyToken V)) = none) :
    winStep tk cur rest cs bi len = .fatal := by
  unfold winStep
  rw [htr]

theorem afterWin_head {V : Type} (tk : Tokenizer V) (cur : InputStream)
    (rest : List InputStream) (len : Nat) (nn : String) (h2 : cur.at_end = false) :
    (afterWin tk cur rest len nn).input_stack.head?.map (fun c => c.at_end)
        = some (decide (cur.stream.length = 0))
    ∧ (afterWin tk cur rest len nn).input_stack.head?.map (fun c => c.stream)
        = some (cur.stream.drop len)
    ∧ (afterWin tk cur rest len nn).input_stack.tail = rest
    ∧ (afterWin tk cur rest len nn).current_state = nn := by
  unfold afterWin
  simp [bumpEnd_at_end cur h2, bumpEnd_stream]

/-! ## Concrete tokenizers used to witness the claims -/

/-- The spec §8 example: token `ab` with symbol 1 and token `abc` with
symbol 2 registered into the default state, input `abcabd` pushed. -/
def tkC1 : Tokenizer Unit :=
  pushInputStream
    (prepare
      (addToken
        (addToken (mkTokenizer Unit 0) (patLit ['a', 'b']) (some 1) none none
          [defaultStateName])
        (patLit ['a', 'b', 'c']) (some 2) none none [defaultStateName]))
    ['a', 'b', 'c', 'a', 'b', 'd']

def curC1 : InputStream :=
  { content := ['a', 'b', 'c', 'a', 'b', 'd'],
    stream := ['a', 'b', 'c', 'a', 'b', 'd'], at_end := false }

def csC1 : StateInfo Unit :=
  { name := defaultStateName,
    tokens :=
      [ { id := 0, matchLen := endPattern, symbol := some 0, action := none,
          transition := none },
        { id := 1, matchLen := patLit ['a', 'b'], symbol := some 1, action := none,
          transition := none },
        { id := 2, matchLen := patLit ['a', 'b', 'c'], symbol := some 2, action := none,
          transition := none } ],
    compiled := true }

/-- Two same-length literal patterns `ab` (symbols 1 and 2), input `ab`:
a genuine tie on the whole input. -/
def tkC2 : Tokenizer Unit :=
  pushInputStream
    (prepare
      (addToken
        (addToken (mkTokenizer Unit 0) (patLit ['a', 'b']) (some 1) none none
          [defaultStateName])
        (patLit ['a', 'b']) (some 2) none none [defaultStateName]))
    ['a', 'b']

def curC2 : InputStream :=
  { content := ['a', 'b'], stream := ['a', 'b'], at_end := false }

def csC2 : StateInfo Unit :=
  { name := defaultStateName,
    tokens :=
      [ { id := 0, matchLen := endPattern, symbol := some 0, action := none,
          transition := none },
        { id := 1, matchLen := patLit ['a', 'b'], symbol := some 1, action := none,
          transition := none },
        { id := 2, matchLen := patLit ['a', 'b'], symbol := some 2, action := none,
          transition := none } ],
    compiled := true }

/-! ## The claims -/

/-- C1: for every `next_token` call whose current stream is not exhausted and
whose current state has at least one matching token pattern at the cursor
(a winning selection `(bi, len)`), the selected winner `bi` is a matching
token whose anchored match length is `len`, `len` is the maximum anchored
match length over all matching tokens of the current state, and any match
returned by this iteration carries exactly that `match_length`. -/
theorem tokenizer_C1 (V : Type) [Inhabited V] (tk : Tokenizer V)
    (cur : InputStream) (rest : List InputStream) (cs : StateInfo V) (bi len : Nat)
    (h1 : tk.input_stack = cur :: rest) (h2 : cur.at_end = false)
    (h3 : lookupState tk.states tk.current_state = some cs)
    (h4 : scanIteration cs cur.stream = some (bi, len)) :
    submatchLen cs.tokens cur.stream bi = len
    ∧ bi ∈ matchedPatterns cs cur.stream
    ∧ (∀ j ∈ matchedPatterns cs cur.stream, submatchLen cs.tokens cur.stream j ≤ len)
    ∧ (∀ m u, nextTokenStep tk = .done (some m) u → m.match_length = len) := by
  obtain ⟨hmem, hsub, hmax, _⟩ := scanIteration_spec cs cur.stream bi len h4
  refine ⟨hsub, hmem, hmax, ?_⟩
  intro m u hstep
  rw [nextTokenStep_win tk cur rest cs bi len h1 h2 h3 h4] at hstep
  unfold winStep at hstep
  rcases htr : transResolve tk (cs.tokens.getD bi (dummyToken V)) with _ | nn
  · rw [htr] at hstep
    exact StepOut.noConfusion hstep
  · rw [htr] at hstep
    rcases hsym : (cs.tokens.getD bi (dummyToken V)).symbol with _ | s
    · rw [hsym] at hstep
      exact StepOut.noConfusion hstep
    · rw [hsym] at hstep
      injection hstep with hr _
      injection hr with hm
      rw [← hm]

theorem tokenizer_C1_witness :
    submatchLen csC1.tokens ['a', 'b', 'c', 'a', 'b', 'd'] 2 = 3
    ∧ 2 ∈ matchedPatterns csC1 ['a', 'b', 'c', 'a', 'b', 'd'] := by
  have h := tokenizer_C1 Unit tkC1 curC1 [] csC1 2 3 rfl rfl rfl rfl
  exact ⟨h.1, h.2.1⟩

/-- C2: when two or more tokens of the current state achieve the same maximal
match length, the winner `bi` is the token examined first, i.e. the one with
the least index in the state's registration order (a later candidate
replaces the current best only on a strictly greater length), and the
returned symbol, if the iteration returns, is that token's symbol. -/
theorem tokenizer_C2 (V : Type) [Inhabited V] (tk : Tokenizer V)
    (cur : InputStream) (rest : List InputStream) (cs : StateInfo V) (bi len : Nat)
    (h1 : tk.input_stack = cur :: rest) (h2 : cur.at_end = false)
    (h3 : lookupState tk.states tk.current_state = some cs)
    (h4 : scanIteration cs cur.stream = some (bi, len)) :
    bi ∈ matchedPatterns cs cur.stream
    ∧ submatchLen cs.tokens cur.stream bi = len
    ∧ (∀ j ∈ matchedPatterns cs cur.stream, submatchLen cs.tokens cur.stream j = len → bi ≤ j)
    ∧ (∀ m u, nextTokenStep tk = .done (some m) u
        → (cs.tokens.getD bi (dummyToken V)).symbol = some m.symbol) := by
  obtain ⟨hmem, hsub, _, hfirst⟩ := scanIteration_spec cs cur.stream bi len h4
  refine ⟨hmem, hsub, hfirst, ?_⟩
  intro m u hstep
  rw [nextTokenStep_win tk cur rest cs bi len h1 h2 h3 h4] at hstep
  unfold winStep at hstep
  rcases htr : transResolve tk (cs.tokens.getD bi (dummyToken V)) with _ | nn
  · rw [htr] at hstep
    exact StepOut.noConfusion hstep
  · rw [htr] at hstep
    rcases hsym : (cs.tokens.getD bi (dummyToken V)).symbol with _ | s
    · rw [hsym] at hstep
      exact StepOut.noConfusion hstep
    · rw [hsym] at hstep
      injection hstep with hr _
      injection hr with hm
      rw [← hm]

theorem tokenizer_C2_witness :
    1 ∈ matchedPatterns csC2 ['a', 'b']
    ∧ submatchLen csC2.tokens ['a', 'b'] 1 = 2 := by
  have h := tokenizer_C2 Unit tkC2 curC2 [] csC2 1 2 rfl rfl rfl rfl
  exact ⟨h.1, h.2.1⟩

/-- One token `a` with symbol 1, input `a`: the first match consumes the
whole stream. -/
def tkC3 : Tokenizer Unit :=
  pushInputStream
    (prepare (addToken (mkTokenizer Unit 0) (patLit ['a']) (some 1) none none
      [defaultStateName]))
    ['a']

/-- C3 counterexample: on `tkC3` the winning match consumes the entire
remaining content (returned match has symbol 1 and length 1, the stream's
remaining suffix is empty afterwards), yet the stream's `at_end` flag is
still `false` after the call — the claim says it should be `true` at that
moment ("one token early"). -/
theorem tokenizer_C3_counterexample :
    (match nextToken 1 tkC3 with
      | .result r u =>
          some (r.map (fun m => (m.symbol, m.match_length)),
                u.input_stack.map (fun c => (c.stream, c.at_end)))
      | _ => none)
      = some (some (1, 1), [(([] : List Char), false)]) := by
  rfl

/-- C3 (amended): after `next_token` resolves a winning match on the active
stream, the stream's `exhausted` flag is set to `true` exactly when the
remaining content was already empty BEFORE consuming the winner (the check
`stream.size() == 0` precedes `remove_prefix`): exhaustion is therefore
detected only by a zero-length match on an already-empty stream — one call
late relative to the match that empties the stream, not one token early. -/
theorem tokenizer_C3_amended (V : Type) [Inhabited V] (tk : Tokenizer V)
    (cur : InputStream) (rest : List InputStream) (cs : StateInfo V) (bi len : Nat)
    (h1 : tk.input_stack = cur :: rest) (h2 : cur.at_end = false)
    (h3 : lookupState tk.states tk.current_state = some cs)
    (h4 : scanIteration cs cur.stream = some (bi, len)) :
    ∀ u, (nextTokenStep tk).nextTk = some u →
      u.input_stack.head?.map (fun c => c.at_end)
          = some (decide (cur.stream.length = 0))
      ∧ u.input_stack.head?.map (fun c => c.stream) = some (cur.stream.drop len) := by
  intro u hu
  rw [nextTokenStep_win tk cur rest cs bi len h1 h2 h3 h4] at hu
  unfold winStep at hu
  rcases htr : transResolve tk (cs.tokens.getD bi (dummyToken V)) with _ | nn
  · rw [htr] at hu
    exact Option.noConfusion hu
  · rw [htr] at hu
    have hafter := afterWin_head tk cur rest len nn h2
    rcases hsym : (cs.tokens.getD bi (dummyToken V)).symbol with _ | s
    · rw [hsym] at hu
      simp only [StepOut.nextTk, Option.some.injEq] at hu
      rw [← hu]
      exact ⟨hafter.1, hafter.2.1⟩
    · rw [hsym] at hu
      simp only [StepOut.nextTk, Option.some.injEq] at hu
      rw [← hu]
      exact ⟨hafter.1, hafter.2.1⟩

/-- Zero-length winning match on an already-empty stream: content `a` fully
consumed, so only the `$` token matches, with length 0. -/
def tkC3w : Tokenizer Unit :=
  { prepare (mkTokenizer Unit 0) with
    input_stack := [{ content := ['a'], stream := [], at_end := false }] }

def tkC3wAfter : Tokenizer Unit :=
  ((nextTokenStep tkC3w).nextTk).getD tkC3w

def csC3w : StateInfo Unit :=
  { name := defaultStateName,
    tokens :=
      [ { id := 0, matchLen := endPattern, symbol := some 0, action := none,
          transition := none } ],
    compiled := true }

theorem tokenizer_C3_witness :
    tkC3wAfter.input_stack.head?.map (fun c => c.at_end) = some true := by
  have h := tokenizer_C3_amended Unit tkC3w
    { content := ['a'], stream := [], at_end := false } [] csC3w 0 0 rfl rfl rfl rfl
  exact (h tkC3wAfter rfl).1

/-- An exhausted stream A (content `x`, fully consumed, flag set) pushed on
top of an unexhausted stream B (content `mn`, one char already consumed). -/
def streamA : InputStream := { content := ['x'], stream := [], at_end := true }

def streamB : InputStream := { content := ['m', 'n'], stream := ['n'], at_end := false }

def tkC4 : Tokenizer Unit :=
  { prepare (mkTokenizer Unit 0) with input_stack := [streamA, streamB] }

/-- C4: while the top stream's exhausted flag is set, every `next_token`
call returns the end-of-input symbol (as a length-0 match with the default
value) and leaves the tokenizer completely unchanged — hence the signal
repeats on every subsequent call until the driver pops; and
`pop_input_stream` merely drops the top entry, so the stream beneath
becomes active again with its own prior cursor untouched. -/
theorem tokenizer_C4 (V : Type) [Inhabited V] (tk : Tokenizer V)
    (cur : InputStream) (rest : List InputStream)
    (h1 : tk.input_stack = cur :: rest) (h2 : cur.at_end = true) :
    (∀ fuel, nextToken (fuel + 1) tk
        = .result (some { symbol := tk.eoi_symbol, value := default, match_length := 0 }) tk)
    ∧ (popInputStream tk).input_stack = rest := by
  constructor
  · intro fuel
    exact nextToken_done tk tk _ fuel (nextTokenStep_atEnd tk cur rest h1 h2)
  · unfold popInputStream
    rw [h1]
    rfl

theorem tokenizer_C4_witness :
    nextToken 1 tkC4
      = .result (some { symbol := 0, value := (), match_length := 0 }) tkC4
    ∧ (popInputStream tkC4).input_stack = [streamB] := by
  have h := tokenizer_C4 Unit tkC4 streamA [streamB] rfl rfl
  exact ⟨h.1 0, h.2⟩

/-- Token `a` with symbol 1; input `b`: no pattern of the default state
matches, while the stream still has content. -/
def tkC5 : Tokenizer Unit :=
  pushInputStream
    (prepare (addToken (mkTokenizer Unit 0) (patLit ['a']) (some 1) none none
      [defaultStateName]))
    ['b']

def curC5 : InputStream := { content := ['b'], stream := ['b'], at_end := false }

def csC5 : StateInfo Unit :=
  { name := defaultStateName,
    tokens :=
      [ { id := 0, matchLen := endPattern, symbol := some 0, action := none,
          transition := none },
        { id := 1, matchLen := patLit ['a'], symbol := some 1, action := none,
          transition := none } ],
    compiled := true }

/-- C5: when the active stream is not exhausted, still has remaining
content, and no token pattern of the current state matches at the cursor,
`next_token` returns the "no token" signal (`result none`, the lexical
failure) with the tokenizer unchanged, and in particular never the
end-of-input style `result (some match)` outcome. -/
theorem tokenizer_C5 (V : Type) [Inhabited V] (tk : Tokenizer V)
    (cur : InputStream) (rest : List InputStream) (cs : StateInfo V)
    (h1 : tk.input_stack = cur :: rest) (h2 : cur.at_end = false)
    (h3 : lookupState tk.states tk.current_state = some cs)
    (h4 : matchedPatterns cs cur.stream = []) (h5 : cur.stream ≠ []) :
    (∀ fuel, nextToken (fuel + 1) tk = .result none tk)
    ∧ (∀ fuel (m : TokenMatch V) u, nextToken (fuel + 1) tk ≠ .result (some m) u) := by
  have hstep := nextTokenStep_noMatch tk cur rest cs h1 h2 h3 h4
  refine ⟨fun fuel => nextToken_done tk tk none fuel hstep, ?_⟩
  intro fuel m u hcon
  rw [nextToken_done tk tk none fuel hstep] at hcon
  injection hcon with hr _
  exact Option.noConfusion hr

theorem tokenizer_C5_witness :
    nextToken 1 tkC5 = .result none tkC5
    ∧ nextToken 1 tkC5
        ≠ .result (some { symbol := 0, value := (), match_length := 0 }) tkC5 := by
  have h := tokenizer_C5 Unit tkC5 curC5 [] csC5 rfl rfl rfl rfl (by decide)
  exact ⟨h.1 0, h.2 0 _ tkC5⟩

/-- A skip token (space, no symbol) and a token `a` with symbol 1;
input ` a`: the space match must be consumed invisibly. -/
def tkC6 : Tokenizer Unit :=
  pushInputStream
    (prepare
      (addToken
        (addToken (mkTokenizer Unit 0) (patLit [' ']) none none none [defaultStateName])
        (patLit ['a']) (some 1) none none [defaultStateName]))
    [' ', 'a']

def curC6 : InputStream := { content := [' ', 'a'], stream := [' ', 'a'], at_end := false }

def csC6 : StateInfo Unit :=
  { name := defaultStateName,
    tokens :=
      [ { id := 0, matchLen := endPattern, symbol := some 0, action := none,
          transition := none },
        { id := 1, matchLen := patLit [' '], symbol := none, action := none,
          transition := none },
        { id := 2, matchLen := patLit ['a'], symbol := some 1, action := none,
          transition := none } ],
    compiled := true }

def tkC6after : Tokenizer Unit :=
  ((nextTokenStep tkC6).nextTk).getD tkC6

/-- C6: when the winning token of an iteration has no symbol (a skip token),
the iteration ends in `again` — the cursor of the top stream is advanced
past the full matched length, no `TokenMatch` is produced for it, and the
whole `next_token` call continues as a fresh scan from the top of the loop
against the updated tokenizer, so a skip match never appears in the
returned match stream. -/
theorem tokenizer_C6 (V : Type) [Inhabited V] (tk : Tokenizer V)
    (cur : InputStream) (rest : List InputStream) (cs : StateInfo V) (bi len : Nat)
    (nn : String)
    (h1 : tk.input_stack = cur :: rest) (h2 : cur.at_end = false)
    (h3 : lookupState tk.states tk.current_state = some cs)
    (h4 : scanIteration cs cur.stream = some (bi, len))
    (hsym : (cs.tokens.getD bi (dummyToken V)).symbol = none)
    (htr : transResolve tk (cs.tokens.getD bi (dummyToken V)) = some nn) :
    nextTokenStep tk = .again (afterWin tk cur rest len nn)
    ∧ (afterWin tk cur rest len nn).input_stack.head?.map (fun c => c.stream)
        = some (cur.stream.drop len)
    ∧ (∀ fuel, nextToken (fuel + 1) tk = nextToken fuel (afterWin tk cur rest len nn)) := by
  have hstep : nextTokenStep tk = .again (afterWin tk cur rest len nn) := by
    rw [nextTokenStep_win tk cur rest cs bi len h1 h2 h3 h4]
    exact winStep_skip tk cur rest cs bi len nn htr hsym
  exact ⟨hstep, (afterWin_head tk cur rest len nn h2).2.1,
    fun fuel => nextToken_succ tk _ fuel hstep⟩

theorem tokenizer_C6_witness :
    nextToken 2 tkC6 = nextToken 1 tkC6after
    ∧ tkC6after.input_stack.head?.map (fun c => c.stream) = some ['a'] := by
  have h := tokenizer_C6 Unit tkC6 curC6 [] csC6 1 1 defaultStateName
    rfl rfl rfl rfl rfl rfl
  exact ⟨h.2.2 1, h.2.1⟩

/-- The state name `"str"` used by the transition examples. -/
def strStateName : String := "str"

/-- Token `<` with symbol 3 and a transition into state `str` (which holds
a token `x` with symbol 4); input `<`. -/
def tkC7 : Tokenizer Unit :=
  pushInputStream
    (prepare
      (addToken
        (addToken (mkTokenizer Unit 0) (patLit ['x']) (some 4) none none [strStateName])
        (patLit ['<']) (some 3) none (some strStateName) [defaultStateName]))
    ['<']

def curC7 : InputStream := { content := ['<'], stream := ['<'], at_end := false }

def csC7 : StateInfo Unit :=
  { name := defaultStateName,
    tokens :=
      [ { id := 0, matchLen := endPattern, symbol := some 0, action := none,
          transition := none },
        { id := 2, matchLen := patLit ['<'], symbol := some 3, action := none,
          transition := some strStateName } ],
    compiled := true }

def stStrC7 : StateInfo Unit :=
  { name := strStateName,
    tokens :=
      [ { id := 1, matchLen := patLit ['x'], symbol := some 4, action := none,
          transition := none } ],
    compiled := true }

def tkC7after : Tokenizer Unit :=
  ((nextTokenStep tkC7).nextTk).getD tkC7

/-- C7: a winning token carrying a transition is itself selected against the
state that was current before the transition (the hypotheses name
`tk.current_state` for the selection), and every continuation of the
iteration — `again` or `done` — carries `current_state` updated to the
transition's target, so a skip token's transition is already in force for
the immediately following match attempt of the same `next_token` call. -/
theorem tokenizer_C7 (V : Type) [Inhabited V] (tk : Tokenizer V)
    (cur : InputStream) (rest : List InputStream) (cs : StateInfo V) (bi len : Nat)
    (name : String) (st : StateInfo V)
    (h1 : tk.input_stack = cur :: rest) (h2 : cur.at_end = false)
    (h3 : lookupState tk.states tk.current_state = some cs)
    (h4 : scanIteration cs cur.stream = some (bi, len))
    (htrans : (cs.tokens.getD bi (dummyToken V)).transition = some name)
    (hlook : lookupState tk.states name = some st) :
    transResolve tk (cs.tokens.getD bi (dummyToken V)) = some name
    ∧ (∀ u, (nextTokenStep tk).nextTk = some u → u.current_state = name)
    ∧ (∀ u fuel, nextTokenStep tk = .again u → nextToken (fuel + 1) tk = nextToken fuel u) := by
  have htr : transResolve tk (cs.tokens.getD bi (dummyToken V)) = some name := by
    simp only [transResolve, htrans, hlook, Option.isSome_some, if_true]
  refine ⟨htr, ?_, fun u fuel h => nextToken_succ tk u fuel h⟩
  intro u hu
  rw [nextTokenStep_win tk cur rest cs bi len h1 h2 h3 h4] at hu
  unfold winStep at hu
  rw [htr] at hu
  rcases hsym : (cs.tokens.getD bi (dummyToken V)).symbol with _ | s
  · rw [hsym] at hu
    simp only [StepOut.nextTk, Option.some.injEq] at hu
    rw [← hu]
    exact (afterWin_head tk cur rest len name h2).2.2.2
  · rw [hsym] at hu
    simp only [StepOut.nextTk, Option.some.injEq] at hu
    rw [← hu]
    exact (afterWin_head tk cur rest len name h2).2.2.2

theorem tokenizer_C7_witness :
    tkC7after.current_state = strStateName := by
  have h := tokenizer_C7 Unit tkC7 curC7 [] csC7 1 1 strStateName stStrC7
    rfl rfl rfl rfl rfl rfl
  exact h.2.1 tkC7after rfl

/-- A state name registered in no tokenizer below. -/
def unknownStateName : String := "nowhere"

/-- Token `<` whose transition names the unregistered state `nowhere`. -/
def tkC8 : Tokenizer Unit :=
  pushInputStream
    (prepare (addToken (mkTokenizer Unit 0) (patLit ['<']) (some 3) none
      (some unknownStateName) [defaultStateName]))
    ['<']

def curC8 : InputStream := { content := ['<'], stream := ['<'], at_end := false }

def csC8 : StateInfo Unit :=
  { name := defaultStateName,
    tokens :=
      [ { id := 0, matchLen := endPattern, symbol := some 0, action := none,
          transition := none },
        { id := 1, matchLen := patLit ['<'], symbol := some 3, action := none,
          transition := some unknownStateName } ],
    compiled := true }

/-- C8: every non-fatal iteration preserves the invariant that
`current_state` names a state present in the registry; and when the winning
token's transition names a state that was never registered, the iteration —
and with it the whole `next_token` call — aborts fatally (the
`enter_state` assert) instead of producing any result or continuing. -/
theorem tokenizer_C8 (V : Type) [Inhabited V] (tk : Tokenizer V) :
    (∀ u, (nextTokenStep tk).nextTk = some u →
        (lookupState tk.states tk.current_state).isSome = true →
        (lookupState u.states u.current_state).isSome = true)
    ∧ (∀ cur rest cs bi len name,
        tk.input_stack = cur :: rest → cur.at_end = false →
        lookupState tk.states tk.current_state = some cs →
        scanIteration cs cur.stream = some (bi, len) →
        (cs.tokens.getD bi (dummyToken V)).transition = some name →
        lookupState tk.states name = none →
        nextTokenStep tk = .fatal ∧ ∀ fuel, nextToken (fuel + 1) tk = .fatal) := by
  constructor
  · intro u hu hsome
    rcases hstack : tk.input_stack with _ | ⟨cur, rest⟩
    · rw [nextTokenStep_emptyStack tk hstack] at hu
      simp only [StepOut.nextTk, Option.some.injEq] at hu
      rw [← hu]
      exact hsome
    · rcases hend : cur.at_end with _ | _
      · rcases hcs : lookupState tk.states tk.current_state with _ | cs
        · rw [nextTokenStep_noState tk cur rest hstack hend hcs] at hu
          simp only [StepOut.nextTk] at hu
          exact Option.noConfusion hu
        · rcases hscan : scanIteration cs cur.stream with _ | ⟨bi, len⟩
          · rw [nextTokenStep_noScan tk cur rest cs hstack hend hcs hscan] at hu
            simp only [StepOut.nextTk, Option.some.injEq] at hu
            rw [← hu]
            exact hsome
          · rw [nextTokenStep_win tk cur rest cs bi len hstack hend hcs hscan] at hu
            rcases htr : transResolve tk (cs.tokens.getD bi (dummyToken V)) with _ | nn
            · rw [winStep_unknownState tk cur rest cs bi len htr] at hu
              simp only [StepOut.nextTk] at hu
              exact Option.noConfusion hu
            · have hnn : (lookupState tk.states nn).isSome = true := by
                unfold transResolve at htr
                rcases htrans : (cs.tokens.getD bi (dummyToken V)).transition with _ | name
                · rw [htrans] at htr
                  injection htr with he
                  rw [← he]
                  exact hsome
                · rw [htrans] at htr
                  have htr' : (if (lookupState tk.states name).isSome = true
                      then some name else none) = some nn := htr
                  rcases hl : (lookupState tk.states name).isSome with _ | _
                  · rw [hl] at htr'
                    simp at htr'
                  · rw [hl] at htr'
                    simp only [if_true] at htr'
                    injection htr' with he
                    rw [← he]
                    exact hl
              rcases hsym : (cs.tokens.getD bi (dummyToken V)).symbol with _ | s
              · rw [winStep_skip tk cur rest cs bi len nn htr hsym] at hu
                simp only [StepOut.nextTk, Option.some.injEq] at hu
                rw [← hu]
                exact hnn
              · rw [winStep_sym tk cur rest cs bi len nn s htr hsym] at hu
                simp only [StepOut.nextTk, Option.some.injEq] at hu
                rw [← hu]
                exact hnn
      · rw [nextTokenStep_atEnd tk cur rest hstack hend] at hu
        simp only [StepOut.nextTk, Option.some.injEq] at hu
        rw [← hu]
        exact hsome
  · intro cur rest cs bi len name h1 h2 h3 h4 htrans hlook
    have htr : transResolve tk (cs.tokens.getD bi (dummyToken V)) = none := by
      simp only [transResolve, htrans, hlook, Option.isSome_none, Bool.false_eq_true,
        if_false]
    have hstep : nextTokenStep tk = .fatal := by
      rw [nextTokenStep_win tk cur rest cs bi len h1 h2 h3 h4]
      exact winStep_unknownState tk cur rest cs bi len htr
    exact ⟨hstep, fun fuel => nextToken_fatal tk fuel hstep⟩

theorem tokenizer_C8_witness :
    nextTokenStep tkC8 = StepOut.fatal ∧ nextToken 1 tkC8 = ScanOutcome.fatal := by
  have h := (tokenizer_C8 Unit tkC8).2 curC8 [] csC8 1 1 unknownStateName
    rfl rfl rfl rfl rfl rfl
  exact ⟨h.1, h.2 0⟩

/-- C9: `prepare` is idempotent — running it twice yields the very same
tokenizer as running it once (compiling an already-compiled state's set is
a refused no-op in the engine, so compilation is not cumulative), and hence
every `next_token` call behaves identically after two `prepare` calls and
after one, for every registered token set, state, and input. -/
theorem tokenizer_C9 (V : Type) [Inhabited V] (tk : Tokenizer V) :
    prepare (prepare tk) = prepare tk
    ∧ ∀ fuel, nextToken fuel (prepare (prepare tk)) = nextToken fuel (prepare tk) := by
  have h : prepare (prepare tk) = prepare tk := by
    unfold prepare
    simp only [List.map_map]
    congr 1
  exact ⟨h, fun fuel => by rw [h]⟩

/-- Skip token `a` (no symbol) and nothing matching `b`; input `ab`:
the skip iteration consumes `a`, then the scan on `b` fails. -/
def tkC10 : Tokenizer Unit :=
  pushInputStream
    (prepare (addToken (mkTokenizer Unit 0) (patLit ['a']) none none none
      [defaultStateName]))
    ['a', 'b']

/-- C10 counterexample: this `next_token` call returns the "no token"
signal, yet the tokenizer is NOT unchanged — the cursor was advanced from
`ab` to `b` by the skip-token iteration that preceded the failing one. -/
theorem tokenizer_C10_counterexample :
    (match nextToken 2 tkC10 with
      | .result r u =>
          some (r.map (fun m => (m.symbol, m.match_length)),
                u.input_stack.map (fun c => (c.stream, c.at_end)))
      | _ => none)
      = some (none, [((['b'] : List Char), false)])
    ∧ tkC10.input_stack.map (fun c => (c.stream, c.at_end))
        = [((['a', 'b'] : List Char), false)] := by
  exact ⟨rfl, rfl⟩

/-- C10 (amended): the "no token" signal leaves the tokenizer unchanged
only at the level of the iteration that raises it: whenever an iteration of
the `next_token` loop returns the "no token" result (empty input stack, or
no pattern of the current state matching the unexhausted stream), that
iteration performs no mutation at all — same input stack, same stream
cursors and exhausted flags, same current state.  A full `next_token` call
that signals "no token" after first consuming skip tokens does keep the
mutations of those earlier skip iterations. -/
theorem tokenizer_C10_amended (V : Type) [Inhabited V] (tk u : Tokenizer V)
    (h : nextTokenStep tk = .done none u) : u = tk := by
  rcases hstack : tk.input_stack with _ | ⟨cur, rest⟩
  · rw [nextTokenStep_emptyStack tk hstack] at h
    injection h with _ he
    rw [he]
  · rcases hend : cur.at_end with _ | _
    · rcases hcs : lookupState tk.states tk.current_state with _ | cs
      · rw [nextTokenStep_noState tk cur rest hstack hend hcs] at h
        exact StepOut.noConfusion h
      · rcases hscan : scanIteration cs cur.stream with _ | ⟨bi, len⟩
        · rw [nextTokenStep_noScan tk cur rest cs hstack hend hcs hscan] at h
          injection h with _ he
          rw [he]
        · rw [nextTokenStep_win tk cur rest cs bi len hstack hend hcs hscan] at h
          rcases htr : transResolve tk (cs.tokens.getD bi (dummyToken V)) with _ | nn
          · rw [winStep_unknownState tk cur rest cs bi len htr] at h
            exact StepOut.noConfusion h
          · rcases hsym : (cs.tokens.getD bi (dummyToken V)).symbol with _ | s
            · rw [winStep_skip tk cur rest cs bi len nn htr hsym] at h
              exact StepOut.noConfusion h
            · rw [winStep_sym tk cur rest cs bi len nn s htr hsym] at h
              injection h with hr _
              exact Option.noConfusion hr
    · rw [nextTokenStep_atEnd tk cur rest hstack hend] at h
      injection h with hr _
      exact Option.noConfusion hr

/-- The no-match tokenizer of C10's amended claim, and the iteration's
output tokenizer extracted from the step. -/
def tkC10w : Tokenizer Unit :=
  pushInputStream
    (prepare (addToken (mkTokenizer Unit 0) (patLit ['a']) (some 1) none none
      [defaultStateName]))
    ['b']

def tkC10wAfter : Tokenizer Unit :=
  ((nextTokenStep tkC10w).nextTk).getD tkC10w

theorem tokenizer_C10_witness : tkC10wAfter = tkC10w :=
  tokenizer_C10_amended Unit tkC10w tkC10wAfter rfl

end Pog
